import Mathlib

/-!
Verification of the ebusd bus-protocol engine (pnxs/ebusd).

This file gives a shallow embedding of the parts of the daemon that the
checked properties talk about:

* the address classification of src/lib/ebus/Address.cpp,
* the bus-handler state machine of src/ebusd/bushandler.cpp
  (setState, the per-state symbol handling of handleSymbol, sendAndWait,
  addSeenAddress),
* the cache decision of MainLoop::executeRead (mainloop.cpp),
* MessagePriorityQueue::push of src/lib/ebus/message.h.

Machine integers are modelled as Nat with explicit masking where the
source masks; time is modelled as seconds in Nat.
-/

namespace Ebusd

/-! ### Symbol constants (src/lib/ebus/symbol.h, values per spec section 6) -/

def SYN : Nat := 0xAA
def ESC : Nat := 0xA9
def ACK : Nat := 0x00
def NAK : Nat := 0xFF
def BROADCAST : Nat := 0xFE

/-! ### Address classification (src/lib/ebus/Address.cpp) -/

/-- Address::getMasterPartIndex: the 1-based rank of the upper or lower
4 bits of a master address (1 to 5), or 0. -/
def getMasterPartIndex (bits : Nat) : Nat :=
  if bits = 0x0 then 1
  else if bits = 0x1 then 2
  else if bits = 0x3 then 3
  else if bits = 0x7 then 4
  else if bits = 0xF then 5
  else 0

/-- Address::isMaster: both nibbles of the byte lie in the set 0,1,3,7,F. -/
def isMaster (a : Nat) : Bool :=
  let addrHi := (a &&& 0xF0) >>> 4
  let addrLo := a &&& 0x0F
  ((addrHi = 0x0) || (addrHi = 0x1) || (addrHi = 0x3) || (addrHi = 0x7) || (addrHi = 0xF))
  && ((addrLo = 0x0) || (addrLo = 0x1) || (addrLo = 0x3) || (addrLo = 0x7) || (addrLo = 0xF))

/-- Address::isSlaveMaster: the byte five below (in uint8 arithmetic) is a master. -/
def isSlaveMaster (a : Nat) : Bool :=
  isMaster ((a + 256 - 5) % 256)

/-- Address::getMasterAddress: the master address paired with this address,
or SYN when there is none. -/
def getMasterAddress (a : Nat) : Nat :=
  if isMaster a then a
  else if isMaster ((a + 256 - 5) % 256) then (a + 256 - 5) % 256
  else SYN

/-- Address::getMasterNumber: the 1..25 master number, or 0 for a non-master. -/
def getMasterNumber (a : Nat) : Nat :=
  let priority := getMasterPartIndex (a &&& 0x0F)
  if priority = 0 then 0
  else
    let index := getMasterPartIndex ((a &&& 0xF0) >>> 4)
    if index = 0 then 0
    else 5 * (priority - 1) + index

/-- Address::isValid: not SYN, not ESC, and broadcast only when allowed. -/
def isValidAddress (a : Nat) (allowBroadcast : Bool) : Bool :=
  a ≠ SYN && a ≠ ESC && (allowBroadcast || a ≠ BROADCAST)

set_option maxRecDepth 4096 in
/-- C5: isMaster holds for exactly 25 of the 256 byte values; the paired
slave address m+5 mod 256 of a master m is never itself a master; and
getMasterNumber maps the 25 masters bijectively onto 1..25 (every master
number lies in 1..25 and every value in 1..25 has exactly one master
preimage) while every non-master is mapped to 0. -/
theorem address_classification :
    ((List.range 256).filter (fun a => isMaster a)).length = 25
    ∧ (∀ a < 256, isMaster a = true → isMaster ((a + 5) % 256) = false)
    ∧ (∀ a < 256, isMaster a = true → 1 ≤ getMasterNumber a ∧ getMasterNumber a ≤ 25)
    ∧ (∀ n < 26, 1 ≤ n →
        ((List.range 256).filter (fun a => isMaster a && getMasterNumber a == n)).length = 1)
    ∧ (∀ a < 256, isMaster a = false → getMasterNumber a = 0) := by
  decide

/-- Witness for C5: the bounded quantifier parts applied at concrete inputs
(0x10 is a master, its paired slave 0x15 is not, its master number is 2). -/
theorem address_classification_witness :
    isMaster ((0x10 + 5) % 256) = false ∧ getMasterNumber 0x10 = 2 := by
  refine ⟨address_classification.2.1 0x10 (by decide) (by decide), by decide⟩

/-! ### Result codes (src/lib/ebus/result.h) -/

/-- The result codes of result.h that the embedded code paths use. -/
inductive result_t
  | ok
  | errTimeout
  | errSyn
  | errCrc
  | errAck
  | errNak
  | errBusLost
  | errNoSignal
  | errSend
  | errDevice
  | errInvalidArg
  deriving DecidableEq, Repr

/-! ### Bus states and requests (src/ebusd/bushandler.h) -/

/-- The possible bus states (enum class BusState). -/
inductive BusState
  | noSignal
  | skip
  | ready
  | recvCmd
  | recvCmdAck
  | recvRes
  | recvResAck
  | sendCmd
  | sendResAck
  | sendCmdAck
  | sendRes
  | sendSyn
  deriving DecidableEq, Repr

/-- A BusRequest. The id field models shared_ptr identity (queue removal and
lookup compare pointers); master is the escaped master SymbolString to send;
restartOn models the virtual notify member: it yields the value notify
returns for a given delivered result (ActiveBusRequest::notify always
returns false, Poll/ScanRequest may return true to be restarted). -/
structure BusRequest where
  id : Nat
  master : List Nat
  busLostRetries : Nat
  deleteOnFinish : Bool
  restartOn : result_t → Bool

/-- The configuration constants of BusHandler that the embedded paths read. -/
structure BusConfig where
  ownMasterAddress : Nat
  answer : Bool
  busLostRetries : Nat
  failedSendRetries : Nat
  pollInterval : Nat

/-- The mutable BusHandler fields that the embedded paths touch. The queue of
finished requests records which result was delivered to each request by
notify. The seen array maps an address byte to its SEEN bit mask. -/
structure EngineState where
  state : BusState
  currentRequest : Option BusRequest
  nextRequests : List BusRequest
  finishedRequests : List (BusRequest × result_t)
  mRepeat : Bool
  command : List Nat
  commandCrcValid : Bool
  response : List Nat
  responseCrcValid : Bool
  nextSendPos : Nat
  remainLockCount : Nat
  lockCount : Nat
  autoLockCount : Bool
  masterCount : Nat
  seen : Nat → Nat
  lastPoll : Nat

/-- Seen bit of m_seenAddresses (bushandler.h). -/
def SEEN : Nat := 0x01

/-- BusHandler constructor: m_lockCount is lockCount when above 3, else 3. -/
def initLockCount (lockCount : Nat) : Nat :=
  if lockCount ≤ 3 then 3 else lockCount

/-- BusHandler constructor: m_autoLockCount is true when lockCount is 0. -/
def initAutoLockCount (lockCount : Nat) : Bool :=
  lockCount = 0

/-- The second half of BusHandler::addSeenAddress, reached with a master
address: when its SEEN bit is still unset, raise the master count (unless
it is the own address of an answering daemon), in auto mode raise the
lock count to the master count when that is larger, and set the SEEN bit. -/
def addSeenMaster (cfg : BusConfig) (s : EngineState) (address : Nat) : EngineState :=
  if s.seen address &&& SEEN = 0 then
    let s :=
      if ¬ cfg.answer ∨ address ≠ cfg.ownMasterAddress then
        let mc := s.masterCount + 1
        { s with masterCount := mc,
                 lockCount := if s.autoLockCount ∧ mc > s.lockCount then mc else s.lockCount }
      else s
    {s with seen := fun x => if x = address then s.seen address ||| SEEN else s.seen x}
  else s

/-- BusHandler::addSeenAddress. A slave address first gets its SEEN bit and
is replaced by its paired master (stopping when there is none); a master
address is then recorded via addSeenMaster. -/
def addSeenAddress (cfg : BusConfig) (s : EngineState) (address : Nat) : EngineState :=
  if ¬ isValidAddress address false then s
  else if ¬ isMaster address then
    let s := {s with seen := fun x => if x = address then s.seen address ||| SEEN else s.seen x}
    let address := getMasterAddress address
    if address = SYN then s else addSeenMaster cfg s address
  else addSeenMaster cfg s address

/-! ### BusHandler::setState (bushandler.cpp) -/

/-- The result delivered to notify by setState: an unexpected SYN while
waiting for the command ack or the response is reported as a timeout. -/
def notifyResultOf (prevState : BusState) (result : result_t) : result_t :=
  if result = .errSyn ∧ (prevState = .recvCmdAck ∨ prevState = .recvRes) then .errTimeout
  else result

/-- The no-signal drain loop of setState: every queued request is notified
with err-no-signal; a request asking to be restarted is re-queued (the
source notes this should not occur with no signal; the model performs a
single pass over the queue). -/
def drainNoSignal (s : EngineState) : EngineState :=
  let step := fun (acc : List BusRequest × List (BusRequest × result_t)) (req : BusRequest) =>
    if req.restartOn .errNoSignal then (acc.1 ++ [{req with busLostRetries := 0}], acc.2)
    else if req.deleteOnFinish then acc
    else (acc.1, acc.2 ++ [(req, result_t.errNoSignal)])
  let drained := s.nextRequests.foldl step ([], [])
  { s with nextRequests := drained.1,
           finishedRequests := s.finishedRequests ++ drained.2,
           currentRequest := none }

/-- The request-handling phase at the top of BusHandler::setState: a lost
arbitration below the retry limit re-queues the current request at the
tail with its counter incremented; a final result (entering send-syn, or
any non-ok result that is not the start of the first repetition) is
delivered via notify, after which the request is re-queued (restart),
dropped (self-deleting) or put into finished_requests. -/
def setStateRequest (cfg : BusConfig) (s : EngineState) (state : BusState)
    (result : result_t) (firstRepetition : Bool) : EngineState :=
  match s.currentRequest with
  | some req =>
    if result = .errBusLost ∧ req.busLostRetries < cfg.busLostRetries then
      { s with nextRequests := s.nextRequests ++ [{req with busLostRetries := req.busLostRetries + 1}],
               currentRequest := none }
    else if state = .sendSyn ∨ (result ≠ .ok ∧ ¬ firstRepetition) then
      let s := if result = .ok then addSeenAddress cfg s (req.master.getD 1 0) else s
      let delivered := notifyResultOf s.state result
      if req.restartOn delivered then
        { s with nextRequests := s.nextRequests ++ [{req with busLostRetries := 0}],
                 currentRequest := none }
      else if req.deleteOnFinish then {s with currentRequest := none}
      else
        { s with finishedRequests := s.finishedRequests ++ [(req, delivered)],
                 currentRequest := none }
    else s
  | none => s

/-- The tail of BusHandler::setState: an unchanged state returns the
result at once, otherwise the state is switched and entering ready or
skip clears the frame buffers. -/
def setStateFinish (s : EngineState) (state : BusState) (result : result_t) :
    EngineState × result_t :=
  if state = s.state then (s, result)
  else
    let s := {s with state := state}
    let s :=
      if state = .ready ∨ state = .skip then
        { s with command := [], commandCrcValid := false,
                 response := [], responseCrcValid := false, nextSendPos := 0 }
      else s
    (s, result)

/-- BusHandler::setState. Handles the current request (bus-lost retry, or
delivery of the final result via notify), drains all requests on loss of
signal, and switches the state, clearing the frame buffers when entering
ready or skip. Returns the new engine state and the passed result. -/
def setState (cfg : BusConfig) (s : EngineState) (state : BusState) (result : result_t)
    (firstRepetition : Bool := false) : EngineState × result_t :=
  let s := setStateRequest cfg s state result firstRepetition
  let s := if state = .noSignal then drainNoSignal {s with response := []} else s
  setStateFinish s state result

/-! ### BusHandler::handleSymbol (bushandler.cpp), per-state pieces -/

/-- Environment of the poll check in the ready branch: the PollRequest
built for the message returned by MessageMap::getNextPoll (none when the
poll queue yields no message), and the result of PollRequest::prepare. -/
structure PollEnv where
  nextPoll : Option BusRequest
  prepareResult : result_t

/-- The cleanup at the top of the ready branch of handleSymbol: an old
current request is cleaned up via setState(ready, err-timeout). -/
def readyCleanup (cfg : BusConfig) (s : EngineState) : EngineState :=
  if s.currentRequest.isSome then (setState cfg s .ready .errTimeout).1 else s

/-- The body of the ready branch of the first switch of handleSymbol,
after the cleanup: when no lock is held and nothing is in flight, pick
the next request to start arbitration for, and otherwise check whether a
poll is due, building and enqueueing a PollRequest. Returns the updated
state and the request arbitration starts for. -/
def readyStartBody (cfg : BusConfig) (env : PollEnv) (now : Nat) (s : EngineState) :
    EngineState × Option BusRequest :=
  if s.remainLockCount = 0 ∧ s.currentRequest.isNone then
    match s.nextRequests.head? with
    | some r => (s, some r)
    | none =>
      if cfg.pollInterval > 0 then
        if s.lastPoll = 0 ∨ now - s.lastPoll > cfg.pollInterval then
          match env.nextPoll with
          | some request =>
            let s := {s with lastPoll := now}
            if env.prepareResult ≠ .ok then (s, none)
            else ({s with nextRequests := s.nextRequests ++ [request]}, some request)
          | none => (s, none)
        else (s, none)
      else (s, none)
  else (s, none)

/-- The BusState::ready branch of the first switch of handleSymbol: clean
up a stale current request, then run the body above. -/
def readyStart (cfg : BusConfig) (env : PollEnv) (now : Nat) (s : EngineState) :
    EngineState × Option BusRequest :=
  readyStartBody cfg env now (readyCleanup cfg s)

/-- The first switch of handleSymbol: per state, decide whether a symbol is
sent and which one. Returns the updated state, the request arbitration is
being started for (ready state only), the sending flag and the symbol. -/
def handleSymbolStart (cfg : BusConfig) (env : PollEnv) (now : Nat) (s : EngineState) :
    EngineState × Option BusRequest × Bool × Nat :=
  match s.state with
  | .ready =>
    let rs := readyStart cfg env now s
    match rs.2 with
    | some r => (rs.1, some r, true, cfg.ownMasterAddress)
    | none => (rs.1, none, false, ESC)
  | .sendCmd =>
    match s.currentRequest with
    | some req => (s, none, true, req.master.getD s.nextSendPos 0)
    | none => (s, none, false, ESC)
  | .sendResAck =>
    match s.currentRequest with
    | some _ => (s, none, true, if s.responseCrcValid then ACK else NAK)
    | none => (s, none, false, ESC)
  | .sendCmdAck =>
    if cfg.answer then (s, none, true, if s.commandCrcValid then ACK else NAK)
    else (s, none, false, ESC)
  | .sendRes =>
    if cfg.answer then (s, none, true, s.response.getD s.nextSendPos 0)
    else (s, none, false, ESC)
  | .sendSyn => (s, none, true, SYN)
  | _ => (s, none, false, ESC)

/-- Queue::remove modelled on the request list: drop the first entry with
the given identity. -/
def removeRequest (id : Nat) : List BusRequest → List BusRequest
  | [] => []
  | r :: rs => if r.id = id then rs else r :: removeRequest id rs

/-- BusHandler::receiveCompleted, restricted to its effect on the engine
state: record both frame addresses as seen unless the message is
self-addressed. The catalog update and logging have no engine-state
effect and are not represented. -/
def receiveCompleted (cfg : BusConfig) (s : EngineState) : EngineState :=
  let srcAddress := s.command.getD 0 0
  let dstAddress := s.command.getD 1 0
  if srcAddress = dstAddress then s
  else addSeenAddress cfg (addSeenAddress cfg s srcAddress) dstAddress

/-- The BusState::ready case of the receive switch of handleSymbol: check
the arbitration echo when a send was started (advance to send-cmd on a
win, compute the remaining lock count and report err-bus-lost on a loss),
then in any case start receiving the winning master's command passively.
The append to the command buffer cannot fail since the buffer collects
unescaped header symbols. -/
def readyOnSymbol (cfg : BusConfig) (s : EngineState) (startRequest : Option BusRequest)
    (sending : Bool) (sendSymbol recvSymbol : Nat) : EngineState × result_t :=
  let push := fun (s : EngineState) =>
    let s := {s with command := s.command ++ [recvSymbol], mRepeat := false}
    setState cfg s .recvCmd .ok
  match startRequest, sending with
  | some req, true =>
    if ¬ s.nextRequests.any (fun r => r.id = req.id) then
      setState cfg s .skip .errTimeout
    else
      let s := {s with nextRequests := removeRequest req.id s.nextRequests,
                       currentRequest := some req}
      if recvSymbol = sendSymbol then
        let s := {s with nextSendPos := 1, mRepeat := false}
        setState cfg s .sendCmd .ok
      else
        let remain := if isMaster recvSymbol then 2 else 1
        let s := { s with remainLockCount :=
          if (recvSymbol &&& 0x0F) ≠ (sendSymbol &&& 0x0F) ∧ s.lockCount > remain then
            s.lockCount
          else remain }
        push (setState cfg s s.state .errBusLost).1
  | _, _ => push s

/-- The BusState::recvCmdAck case of the receive switch of handleSymbol:
an ACK finishes the master half (master-to-master) or moves on to the
slave response; a NAK triggers exactly one repetition of the master half. -/
def recvCmdAckOnSymbol (cfg : BusConfig) (s : EngineState) (recvSymbol : Nat) :
    EngineState × result_t :=
  if recvSymbol = ACK then
    if ¬ s.commandCrcValid then setState cfg s .skip .errAck
    else
      match s.currentRequest with
      | some req =>
        if isMaster (req.master.getD 1 0) then setState cfg s .sendSyn .ok
        else
          let s := {s with mRepeat := false}
          setState cfg s .recvRes .ok
      | none =>
        if isMaster (s.command.getD 1 0) then
          setState cfg (receiveCompleted cfg s) .skip .ok
        else
          let s := {s with mRepeat := false}
          setState cfg s .recvRes .ok
  else if recvSymbol = NAK then
    if ¬ s.mRepeat then
      let s := {s with mRepeat := true, nextSendPos := 0, command := []}
      if s.currentRequest.isSome then setState cfg s .sendCmd .errNak true
      else setState cfg s .recvCmd .errNak
    else setState cfg s .skip .errNak
  else setState cfg s .skip .errAck

/-- The BusState::sendCmd case of the receive switch of handleSymbol:
verify the echoed symbol and advance; once the whole master frame is out,
a broadcast destination completes via send-syn, any other destination
waits for the command ack. -/
def sendCmdOnSymbol (cfg : BusConfig) (s : EngineState) (sending : Bool)
    (sendSymbol recvSymbol : Nat) : EngineState × result_t :=
  match s.currentRequest with
  | some req =>
    if sending ∧ recvSymbol = sendSymbol then
      let s := {s with nextSendPos := s.nextSendPos + 1}
      if s.nextSendPos ≥ req.master.length then
        if req.master.getD 1 0 = BROADCAST then setState cfg s .sendSyn .ok
        else
          let s := {s with commandCrcValid := true}
          setState cfg s .recvCmdAck .ok
      else (s, .ok)
    else setState cfg s .skip .errInvalidArg
  | none => setState cfg s .skip .errInvalidArg

/-! ### BusHandler::sendAndWait (bushandler.cpp) -/

/-- One attempt of sendAndWait: the request is pushed onto next_requests
and waited for on finished_requests. The Boolean is the success of the
blocking remove (false when waiting timed out and the request never
finished), the result is the one the engine recorded on the request. -/
def attemptOutcome := Nat → Bool × result_t

/-- The retry loop of BusHandler::sendAndWait. The loop counter starts at
failedSendRetries + 1 and the loop body runs while the counter is at
least zero; done counts the attempts already made. The loop stops early
on success, and on a failed wait or err-no-signal, err-send or
err-device. Returns the final result and the number of attempts made. -/
def sendAndWaitLoop (attempt : attemptOutcome) (done : Nat) : Nat → result_t × Nat
  | 0 =>
    let success := (attempt done).1
    let res := if success then (attempt done).2 else .errTimeout
    (res, done + 1)
  | sendRetries + 1 =>
    let success := (attempt done).1
    let res := if success then (attempt done).2 else .errTimeout
    if res = .ok then (res, done + 1)
    else if ¬ success ∨ res = .errNoSignal ∨ res = .errSend ∨ res = .errDevice then
      (res, done + 1)
    else sendAndWaitLoop attempt (done + 1) sendRetries

/-- BusHandler::sendAndWait, abstracted over the outcome of each attempt:
runs the loop with the counter starting at failedSendRetries + 1. -/
def sendAndWait (failedSendRetries : Nat) (attempt : attemptOutcome) : result_t × Nat :=
  sendAndWaitLoop attempt 0 (failedSendRetries + 1)

/-! ### MainLoop::executeRead cache decision (mainloop.cpp) -/

/-- The per-message data executeRead reads: the last update time of the
cached data (0 for never), whether the message is passive, and its fixed
destination address (SYN when the message has none). -/
structure Message where
  lastUpdateTime : Nat
  passive : Bool
  dstAddress : Nat
  deriving DecidableEq, Repr

/-- The default maximum cache age of executeRead (time_t maxAge = 5*60). -/
def executeReadDefaultMaxAge : Nat := 5 * 60

/-- The cache-message selection of executeRead: find with includePassive
yielded cacheMessage0; when there is none, or the plain find result is
strictly newer, the plain find result is used instead. -/
def selectCacheMessage (message cacheMessage0 : Option Message) : Option Message :=
  match cacheMessage0 with
  | none => message
  | some cm =>
    match message with
    | some m => if m.lastUpdateTime > cm.lastUpdateTime then message else cacheMessage0
    | none => cacheMessage0

/-- How executeRead answers a non-hex read request. -/
inductive ReadAction
  | cachedValue
  | noDataStored
  | notFound
  | invalidAddress
  | busRead
  deriving DecidableEq, Repr

/-- The decision logic of MainLoop::executeRead after the message lookup
(non-hex path): dstAddress is the destination override (SYN when not
given), maxAge is 0 exactly when -f was given, message is the result of
the plain find and cacheMessage0 the result of the find that includes
passive messages. cachedValue means the cached data is decoded and
returned; busRead means readFromBus performs an active read;
the remaining actions are error replies that do not touch the bus. -/
def executeReadAction (maxAge dstAddress now : Nat)
    (message cacheMessage0 : Option Message) : ReadAction :=
  let viaCache : Option ReadAction :=
    if dstAddress = SYN ∧ maxAge > 0 then
      let hasCache := cacheMessage0.isSome
      match selectCacheMessage message cacheMessage0 with
      | some cm =>
        if cm.lastUpdateTime + maxAge > now ∨ (cm.passive ∧ cm.lastUpdateTime ≠ 0) then
          some .cachedValue
        else if message.isNone ∧ hasCache then some .noDataStored
        else none
      | none =>
        if message.isNone ∧ hasCache then some .noDataStored else none
    else none
  match viaCache with
  | some action => action
  | none =>
    match message with
    | none => .notFound
    | some m =>
      if m.dstAddress = SYN ∧ dstAddress = SYN then .invalidAddress
      else .busRead

/-! ### MessagePriorityQueue::push (src/lib/ebus/message.h) -/

/-- The duplicate-removal loop of MessagePriorityQueue::push: iterate over
the underlying container and erase the first element equal to the pushed
one. -/
def eraseFirst {α : Type} [DecidableEq α] (x : α) : List α → List α
  | [] => []
  | y :: ys => if y = x then ys else y :: eraseFirst x ys

/-- MessagePriorityQueue::push: first drop an already contained equal
element, then delegate to priority_queue::push, which appends the element
and restores the heap shape. The heap restoration only rearranges the
container, so it is abstracted as a function heapPush that is assumed to
permute its input (the contract of std::push_heap). -/
def priorityQueuePush {α : Type} [DecidableEq α] (heapPush : List α → List α)
    (x : α) (c : List α) : List α :=
  heapPush (eraseFirst x c ++ [x])

/-- The container contents after a sequence of MessagePriorityQueue::push
calls starting from the empty queue. -/
def pushAll {α : Type} [DecidableEq α] (heapPush : List α → List α)
    (xs : List α) : List α :=
  xs.foldl (fun c x => priorityQueuePush heapPush x c) []

/-! ### Frame lemmas for the engine model -/

theorem addSeenMaster_frame (cfg : BusConfig) (s : EngineState) (a : Nat) :
    (addSeenMaster cfg s a).state = s.state
    ∧ (addSeenMaster cfg s a).currentRequest = s.currentRequest
    ∧ (addSeenMaster cfg s a).nextRequests = s.nextRequests
    ∧ (addSeenMaster cfg s a).finishedRequests = s.finishedRequests
    ∧ (addSeenMaster cfg s a).mRepeat = s.mRepeat
    ∧ (addSeenMaster cfg s a).command = s.command
    ∧ (addSeenMaster cfg s a).commandCrcValid = s.commandCrcValid
    ∧ (addSeenMaster cfg s a).response = s.response
    ∧ (addSeenMaster cfg s a).responseCrcValid = s.responseCrcValid
    ∧ (addSeenMaster cfg s a).nextSendPos = s.nextSendPos
    ∧ (addSeenMaster cfg s a).remainLockCount = s.remainLockCount
    ∧ (addSeenMaster cfg s a).autoLockCount = s.autoLockCount
    ∧ (addSeenMaster cfg s a).lastPoll = s.lastPoll := by
  unfold addSeenMaster
  repeat' split <;> simp

theorem addSeenMaster_lockCount_mono (cfg : BusConfig) (s : EngineState) (a : Nat) :
    s.lockCount ≤ (addSeenMaster cfg s a).lockCount := by
  unfold addSeenMaster
  split
  · dsimp only
    split
    · dsimp only
      split
      · next h => exact Nat.le_of_lt h.2
      · exact le_refl _
    · exact le_refl _
  · exact le_refl _

theorem addSeenMaster_lockCount_auto (cfg : BusConfig) (s : EngineState) (a : Nat) :
    (s.autoLockCount = false → (addSeenMaster cfg s a).lockCount = s.lockCount)
    ∧ ((addSeenMaster cfg s a).lockCount ≠ s.lockCount →
        s.autoLockCount = true
        ∧ (addSeenMaster cfg s a).lockCount = (addSeenMaster cfg s a).masterCount
        ∧ s.lockCount < (addSeenMaster cfg s a).masterCount) := by
  unfold addSeenMaster
  repeat' split <;> simp_all

theorem addSeenAddress_frame (cfg : BusConfig) (s : EngineState) (a : Nat) :
    (addSeenAddress cfg s a).state = s.state
    ∧ (addSeenAddress cfg s a).currentRequest = s.currentRequest
    ∧ (addSeenAddress cfg s a).nextRequests = s.nextRequests
    ∧ (addSeenAddress cfg s a).finishedRequests = s.finishedRequests
    ∧ (addSeenAddress cfg s a).mRepeat = s.mRepeat
    ∧ (addSeenAddress cfg s a).command = s.command
    ∧ (addSeenAddress cfg s a).commandCrcValid = s.commandCrcValid
    ∧ (addSeenAddress cfg s a).response = s.response
    ∧ (addSeenAddress cfg s a).responseCrcValid = s.responseCrcValid
    ∧ (addSeenAddress cfg s a).nextSendPos = s.nextSendPos
    ∧ (addSeenAddress cfg s a).remainLockCount = s.remainLockCount
    ∧ (addSeenAddress cfg s a).autoLockCount = s.autoLockCount
    ∧ (addSeenAddress cfg s a).lastPoll = s.lastPoll := by
  unfold addSeenAddress
  split
  · simp
  · split
    · dsimp only
      split
      · simp
      · simp [addSeenMaster_frame]
    · simp [addSeenMaster_frame]

theorem addSeenAddress_lockCount_mono (cfg : BusConfig) (s : EngineState) (a : Nat) :
    s.lockCount ≤ (addSeenAddress cfg s a).lockCount := by
  unfold addSeenAddress
  split
  · exact le_refl _
  · split
    · dsimp only
      split
      · exact le_refl _
      · exact addSeenMaster_lockCount_mono cfg
          {s with seen := fun x => if x = a then s.seen a ||| SEEN else s.seen x}
          (getMasterAddress a)
    · exact addSeenMaster_lockCount_mono cfg s a

theorem addSeenAddress_lockCount_auto (cfg : BusConfig) (s : EngineState) (a : Nat) :
    (s.autoLockCount = false → (addSeenAddress cfg s a).lockCount = s.lockCount)
    ∧ ((addSeenAddress cfg s a).lockCount ≠ s.lockCount →
        s.autoLockCount = true
        ∧ (addSeenAddress cfg s a).lockCount = (addSeenAddress cfg s a).masterCount
        ∧ s.lockCount < (addSeenAddress cfg s a).masterCount) := by
  unfold addSeenAddress
  split
  · simp
  · split
    · dsimp only
      split
      · simp
      · exact addSeenMaster_lockCount_auto cfg
          {s with seen := fun x => if x = a then s.seen a ||| SEEN else s.seen x}
          (getMasterAddress a)
    · exact addSeenMaster_lockCount_auto cfg s a

theorem drainNoSignal_frame (s : EngineState) :
    (drainNoSignal s).state = s.state
    ∧ (drainNoSignal s).currentRequest = none
    ∧ (drainNoSignal s).mRepeat = s.mRepeat
    ∧ (drainNoSignal s).command = s.command
    ∧ (drainNoSignal s).commandCrcValid = s.commandCrcValid
    ∧ (drainNoSignal s).response = s.response
    ∧ (drainNoSignal s).responseCrcValid = s.responseCrcValid
    ∧ (drainNoSignal s).nextSendPos = s.nextSendPos
    ∧ (drainNoSignal s).remainLockCount = s.remainLockCount
    ∧ (drainNoSignal s).lockCount = s.lockCount
    ∧ (drainNoSignal s).autoLockCount = s.autoLockCount
    ∧ (drainNoSignal s).masterCount = s.masterCount
    ∧ (drainNoSignal s).lastPoll = s.lastPoll := by
  unfold drainNoSignal
  simp

theorem setStateRequest_frame (cfg : BusConfig) (s : EngineState) (state : BusState)
    (result : result_t) (frp : Bool) :
    (setStateRequest cfg s state result frp).state = s.state
    ∧ (setStateRequest cfg s state result frp).mRepeat = s.mRepeat
    ∧ (setStateRequest cfg s state result frp).command = s.command
    ∧ (setStateRequest cfg s state result frp).commandCrcValid = s.commandCrcValid
    ∧ (setStateRequest cfg s state result frp).response = s.response
    ∧ (setStateRequest cfg s state result frp).responseCrcValid = s.responseCrcValid
    ∧ (setStateRequest cfg s state result frp).nextSendPos = s.nextSendPos
    ∧ (setStateRequest cfg s state result frp).remainLockCount = s.remainLockCount
    ∧ (setStateRequest cfg s state result frp).autoLockCount = s.autoLockCount
    ∧ (setStateRequest cfg s state result frp).lastPoll = s.lastPoll := by
  unfold setStateRequest
  cases hcur : s.currentRequest with
  | none => exact ⟨rfl, rfl, rfl, rfl, rfl, rfl, rfl, rfl, rfl, rfl⟩
  | some req =>
    dsimp only
    by_cases hok : result = result_t.ok
    · subst hok
      simp only [if_pos rfl]
      repeat' split
      all_goals first
        | exact ⟨rfl, rfl, rfl, rfl, rfl, rfl, rfl, rfl, rfl, rfl⟩
        | simp_all [addSeenAddress_frame]
    · simp only [if_neg hok]
      repeat' split
      all_goals first
        | exact ⟨rfl, rfl, rfl, rfl, rfl, rfl, rfl, rfl, rfl, rfl⟩
        | simp_all

theorem setStateRequest_lockCount_mono (cfg : BusConfig) (s : EngineState) (state : BusState)
    (result : result_t) (frp : Bool) :
    s.lockCount ≤ (setStateRequest cfg s state result frp).lockCount := by
  unfold setStateRequest
  cases hcur : s.currentRequest with
  | none => exact le_refl _
  | some req =>
    dsimp only
    by_cases hok : result = result_t.ok
    · subst hok
      simp only [if_pos rfl]
      have hm := addSeenAddress_lockCount_mono cfg s (req.master.getD 1 0)
      repeat' split
      all_goals first
        | exact le_refl _
        | exact hm
        | simp_all
    · simp only [if_neg hok]
      repeat' split
      all_goals first
        | exact le_refl _
        | simp_all

theorem setStateFinish_fields (s : EngineState) (state : BusState) (result : result_t) :
    (setStateFinish s state result).1.state = state
    ∧ (setStateFinish s state result).1.currentRequest = s.currentRequest
    ∧ (setStateFinish s state result).1.nextRequests = s.nextRequests
    ∧ (setStateFinish s state result).1.finishedRequests = s.finishedRequests
    ∧ (setStateFinish s state result).1.mRepeat = s.mRepeat
    ∧ (setStateFinish s state result).1.remainLockCount = s.remainLockCount
    ∧ (setStateFinish s state result).1.lockCount = s.lockCount
    ∧ (setStateFinish s state result).1.masterCount = s.masterCount
    ∧ (setStateFinish s state result).1.autoLockCount = s.autoLockCount
    ∧ (setStateFinish s state result).1.lastPoll = s.lastPoll
    ∧ (setStateFinish s state result).2 = result
    ∧ (state ≠ .ready ∧ state ≠ .skip →
        (setStateFinish s state result).1.nextSendPos = s.nextSendPos
        ∧ (setStateFinish s state result).1.command = s.command
        ∧ (setStateFinish s state result).1.commandCrcValid = s.commandCrcValid
        ∧ (setStateFinish s state result).1.response = s.response
        ∧ (setStateFinish s state result).1.responseCrcValid = s.responseCrcValid) := by
  unfold setStateFinish
  by_cases h : state = s.state
  · rw [if_pos h]
    exact ⟨h.symm, rfl, rfl, rfl, rfl, rfl, rfl, rfl, rfl, rfl, rfl,
      fun _ => ⟨rfl, rfl, rfl, rfl, rfl⟩⟩
  · rw [if_neg h]
    dsimp only
    split
    · next hrs =>
      exact ⟨rfl, rfl, rfl, rfl, rfl, rfl, rfl, rfl, rfl, rfl, rfl,
        fun hc => hrs.elim (fun h' => absurd h' hc.1) (fun h' => absurd h' hc.2)⟩
    · exact ⟨rfl, rfl, rfl, rfl, rfl, rfl, rfl, rfl, rfl, rfl, rfl,
        fun _ => ⟨rfl, rfl, rfl, rfl, rfl⟩⟩

theorem setState_fst_common (cfg : BusConfig) (s : EngineState) (state : BusState)
    (result : result_t) (frp : Bool) :
    (setState cfg s state result frp).1.state = state
    ∧ (setState cfg s state result frp).1.remainLockCount = s.remainLockCount
    ∧ (setState cfg s state result frp).1.mRepeat = s.mRepeat
    ∧ (setState cfg s state result frp).1.lastPoll = s.lastPoll
    ∧ (setState cfg s state result frp).2 = result := by
  unfold setState
  dsimp only
  obtain ⟨f1, f2, f3, f4, f5, f6, f7, f8, f9, f10⟩ :=
    setStateRequest_frame cfg s state result frp
  split
  · next hns =>
    obtain ⟨d1, d2, d3, d4, d5, d6, d7, d8, d9, d10, d11, d12, d13⟩ :=
      drainNoSignal_frame {(setStateRequest cfg s state result frp) with response := []}
    obtain ⟨g1, g2, g3, g4, g5, g6, g7, g8, g9, g10, g11, g12⟩ :=
      setStateFinish_fields
        (drainNoSignal {(setStateRequest cfg s state result frp) with response := []})
        state result
    refine ⟨g1, ?_, ?_, ?_, g11⟩
    · rw [g6, d9]; exact f8
    · rw [g5, d3]; exact f2
    · rw [g10, d13]; exact f10
  · obtain ⟨g1, g2, g3, g4, g5, g6, g7, g8, g9, g10, g11, g12⟩ :=
      setStateFinish_fields (setStateRequest cfg s state result frp) state result
    refine ⟨g1, ?_, ?_, ?_, g11⟩
    · rw [g6]; exact f8
    · rw [g5]; exact f2
    · rw [g10]; exact f10

theorem setState_fst_lockCount_mono (cfg : BusConfig) (s : EngineState) (state : BusState)
    (result : result_t) (frp : Bool) :
    s.lockCount ≤ (setState cfg s state result frp).1.lockCount := by
  unfold setState
  dsimp only
  have hm := setStateRequest_lockCount_mono cfg s state result frp
  split
  · obtain ⟨d1, d2, d3, d4, d5, d6, d7, d8, d9, d10, d11, d12, d13⟩ :=
      drainNoSignal_frame {(setStateRequest cfg s state result frp) with response := []}
    obtain ⟨g1, g2, g3, g4, g5, g6, g7, g8, g9, g10, g11, g12⟩ :=
      setStateFinish_fields
        (drainNoSignal {(setStateRequest cfg s state result frp) with response := []})
        state result
    rw [g7, d10]
    exact hm
  · obtain ⟨g1, g2, g3, g4, g5, g6, g7, g8, g9, g10, g11, g12⟩ :=
      setStateFinish_fields (setStateRequest cfg s state result frp) state result
    rw [g7]
    exact hm

theorem setState_fst_lockCount_mono_of_eq (cfg : BusConfig) (s : EngineState)
    (state : BusState) (result : result_t) (frp : Bool) (n : Nat)
    (h : s.lockCount = n) :
    n ≤ (setState cfg s state result frp).1.lockCount :=
  h ▸ setState_fst_lockCount_mono cfg s state result frp

theorem setState_fst_queues (cfg : BusConfig) (s : EngineState) (state : BusState)
    (result : result_t) (frp : Bool) (h : state ≠ .noSignal) :
    (setState cfg s state result frp).1.nextRequests
        = (setStateRequest cfg s state result frp).nextRequests
    ∧ (setState cfg s state result frp).1.finishedRequests
        = (setStateRequest cfg s state result frp).finishedRequests
    ∧ (setState cfg s state result frp).1.currentRequest
        = (setStateRequest cfg s state result frp).currentRequest := by
  unfold setState
  dsimp only
  rw [if_neg h]
  obtain ⟨g1, g2, g3, g4, g5, g6, g7, g8, g9, g10, g11, g12⟩ :=
    setStateFinish_fields (setStateRequest cfg s state result frp) state result
  exact ⟨g3, g4, g2⟩

theorem setState_fst_buffers (cfg : BusConfig) (s : EngineState) (state : BusState)
    (result : result_t) (frp : Bool) (h1 : state ≠ .noSignal)
    (h2 : state ≠ .ready) (h3 : state ≠ .skip) :
    (setState cfg s state result frp).1.nextSendPos = s.nextSendPos
    ∧ (setState cfg s state result frp).1.command = s.command
    ∧ (setState cfg s state result frp).1.commandCrcValid = s.commandCrcValid
    ∧ (setState cfg s state result frp).1.response = s.response := by
  unfold setState
  dsimp only
  rw [if_neg h1]
  obtain ⟨f1, f2, f3, f4, f5, f6, f7, f8, f9, f10⟩ :=
    setStateRequest_frame cfg s state result frp
  obtain ⟨g1, g2, g3, g4, g5, g6, g7, g8, g9, g10, g11, g12⟩ :=
    setStateFinish_fields (setStateRequest cfg s state result frp) state result
  obtain ⟨b1, b2, b3, b4, b5⟩ := g12 ⟨h2, h3⟩
  exact ⟨b1.trans f7, b2.trans f3, b3.trans f4, b4.trans f5⟩

/-! ### C4: the executeRead cache decision -/

/-- C4 counterexample: a read without -f and without a destination override
(dstAddress = SYN, maxAge = 300) of a passive message whose cached data is
long stale (updated at time 300, asked at time 10000) is still answered
from the cache, although the freshness condition of the claim fails, so
no active read happens. -/
theorem executeRead_stale_passive_from_cache :
    executeReadAction 300 SYN 10000
        (some ⟨300, true, 0x08⟩) (some ⟨300, true, 0x08⟩) = .cachedValue
    ∧ ¬ (300 + 300 > 10000) := by
  decide

/-- C4 amended: the default maxAge is 300 seconds, and a READ without -f
and without a destination override is answered from the cache exactly
when the selected cache message is fresh (its last update time plus
maxAge is later than now) OR it is a passive message with any nonzero
update time; in the remaining cases the daemon performs an active read on
the bus or returns an error reply without touching the bus. -/
theorem executeRead_cache_characterization (maxAge dstAddress now : Nat)
    (message cacheMessage0 : Option Message) :
    executeReadDefaultMaxAge = 300
    ∧ (executeReadAction maxAge dstAddress now message cacheMessage0 = .cachedValue
       ↔ dstAddress = SYN ∧ 0 < maxAge ∧
         ∃ cm, selectCacheMessage message cacheMessage0 = some cm ∧
           (now < cm.lastUpdateTime + maxAge ∨ (cm.passive = true ∧ cm.lastUpdateTime ≠ 0))) := by
  refine ⟨rfl, ?_⟩
  unfold executeReadAction
  by_cases hd : dstAddress = SYN ∧ maxAge > 0
  · rw [if_pos hd]
    cases hsel : selectCacheMessage message cacheMessage0 with
    | none =>
      dsimp only
      cases message with
      | none =>
        by_cases hc : cacheMessage0.isSome = true
        · simp [hc]
        · simp [hc]
      | some m =>
        by_cases hsyn : m.dstAddress = SYN ∧ dstAddress = SYN
        · simp [hsyn]
        · simp [hsyn]
    | some cm =>
      dsimp only
      by_cases hfresh : cm.lastUpdateTime + maxAge > now ∨ (cm.passive = true ∧ cm.lastUpdateTime ≠ 0)
      · rw [if_pos hfresh]
        constructor
        · intro _
          exact ⟨hd.1, hd.2, cm, rfl, hfresh⟩
        · intro _; rfl
      · rw [if_neg hfresh]
        constructor
        · intro hcv
          exfalso
          by_cases hnd : message.isNone = true ∧ cacheMessage0.isSome = true
          · simp [hnd] at hcv
          · simp only [if_neg hnd] at hcv
            cases message with
            | none => simp at hcv
            | some m =>
              by_cases hsyn : m.dstAddress = SYN ∧ dstAddress = SYN
              · simp [hsyn] at hcv
              · simp [hsyn] at hcv
        · rintro ⟨-, -, cm', hcm', hf'⟩
          rw [Option.some_inj] at hcm'
          subst hcm'
          exact absurd hf' hfresh
  · rw [if_neg hd]
    dsimp only
    cases message with
    | none =>
      constructor
      · intro hcv; simp at hcv
      · rintro ⟨h1, h2, -⟩; exact absurd ⟨h1, h2⟩ hd
    | some m =>
      by_cases hsyn : m.dstAddress = SYN ∧ dstAddress = SYN
      · simp only [if_pos hsyn]
        constructor
        · intro hcv; simp at hcv
        · rintro ⟨h1, h2, -⟩; exact absurd ⟨h1, h2⟩ hd
      · simp only [if_neg hsyn]
        constructor
        · intro hcv; simp at hcv
        · rintro ⟨h1, h2, -⟩; exact absurd ⟨h1, h2⟩ hd

/-! ### C10: distinctness of the poll priority queue -/

theorem eraseFirst_subset {α : Type} [DecidableEq α] (x a : α) :
    ∀ l : List α, a ∈ eraseFirst x l → a ∈ l := by
  intro l
  induction l with
  | nil => simp [eraseFirst]
  | cons y ys ih =>
    simp only [eraseFirst]
    split
    · intro h; exact List.mem_cons_of_mem _ h
    · intro h
      rcases List.mem_cons.mp h with h | h
      · exact h ▸ List.mem_cons_self _ _
      · exact List.mem_cons_of_mem _ (ih h)

theorem self_not_mem_eraseFirst {α : Type} [DecidableEq α] (x : α) :
    ∀ l : List α, l.Nodup → x ∉ eraseFirst x l := by
  intro l
  induction l with
  | nil => simp [eraseFirst]
  | cons y ys ih =>
    intro hnd
    rcases List.nodup_cons.mp hnd with ⟨hy, hys⟩
    simp only [eraseFirst]
    split
    · next heq => exact heq ▸ hy
    · next hne =>
      intro hmem
      rcases List.mem_cons.mp hmem with h | h
      · exact hne h.symm
      · exact ih hys h

theorem nodup_eraseFirst {α : Type} [DecidableEq α] (x : α) :
    ∀ l : List α, l.Nodup → (eraseFirst x l).Nodup := by
  intro l
  induction l with
  | nil => simp [eraseFirst]
  | cons y ys ih =>
    intro hnd
    rcases List.nodup_cons.mp hnd with ⟨hy, hys⟩
    simp only [eraseFirst]
    split
    · exact hys
    · exact List.nodup_cons.mpr ⟨fun hmem => hy (eraseFirst_subset x y ys hmem), ih hys⟩

theorem nodup_priorityQueuePush {α : Type} [DecidableEq α] (heapPush : List α → List α)
    (hperm : ∀ l, (heapPush l).Perm l) (x : α) (c : List α) (h : c.Nodup) :
    (priorityQueuePush heapPush x c).Nodup := by
  refine ((hperm (eraseFirst x c ++ [x])).nodup_iff).mpr ?_
  refine List.Nodup.append (nodup_eraseFirst x c h) (List.nodup_singleton x) ?_
  intro a ha hb
  rcases List.mem_singleton.mp hb with rfl
  exact self_not_mem_eraseFirst a c h ha

/-- C10: MessagePriorityQueue::push removes an equal element before
inserting, so a push into a duplicate-free container keeps it
duplicate-free, and any sequence of pushes starting from the empty
container yields a container holding each message at most once. Here
heapPush stands for priority_queue::push, which only rearranges the
container (the std::push_heap contract). -/
theorem messagePriorityQueue_push_distinct {α : Type} [DecidableEq α]
    (heapPush : List α → List α) (hperm : ∀ l, (heapPush l).Perm l) :
    (∀ (x : α) (c : List α), c.Nodup → (priorityQueuePush heapPush x c).Nodup)
    ∧ ∀ xs : List α, (pushAll heapPush xs).Nodup := by
  refine ⟨fun x c h => nodup_priorityQueuePush heapPush hperm x c h, fun xs => ?_⟩
  have key : ∀ (ys : List α) (c : List α), c.Nodup →
      (ys.foldl (fun c x => priorityQueuePush heapPush x c) c).Nodup := by
    intro ys
    induction ys with
    | nil => intro c h; simpa using h
    | cons y ys ih =>
      intro c h
      exact ih _ (nodup_priorityQueuePush heapPush hperm y c h)
  exact key xs [] List.nodup_nil

/-- Witness for C10: a concrete push sequence with repetitions, with the
heap rearrangement instantiated by the identity permutation. -/
theorem messagePriorityQueue_push_distinct_witness :
    (pushAll (fun l : List Nat => l) [1, 2, 1, 3, 2]).Nodup :=
  (messagePriorityQueue_push_distinct (fun l => l) (fun l => List.Perm.refl l)).2 [1, 2, 1, 3, 2]

/-! ### C3: the sendAndWait retry bound -/

theorem sendAndWaitLoop_attempt_count (attempt : attemptOutcome) :
    ∀ (n done : Nat), (sendAndWaitLoop attempt done n).2 ≤ done + n + 1 := by
  intro n
  induction n with
  | zero => intro done; simp [sendAndWaitLoop]
  | succ k ih =>
    intro done
    have hrec := ih (done + 1)
    simp only [sendAndWaitLoop]
    repeat' split
    all_goals omega

theorem sendAndWaitLoop_retry_only_retryable (attempt : attemptOutcome) :
    ∀ (n done k : Nat), done ≤ k → k + 1 < (sendAndWaitLoop attempt done n).2 →
      (attempt k).1 = true ∧ (attempt k).2 ≠ .ok ∧ (attempt k).2 ≠ .errNoSignal ∧
      (attempt k).2 ≠ .errSend ∧ (attempt k).2 ≠ .errDevice := by
  intro n
  induction n with
  | zero =>
    intro done k hdk h
    simp only [sendAndWaitLoop] at h
    omega
  | succ m ih =>
    intro done k hdk h
    simp only [sendAndWaitLoop] at h
    cases hb : (attempt done).1 with
    | false =>
      rw [hb] at h
      simp at h
      omega
    | true =>
      rw [hb] at h
      by_cases hok : (attempt done).2 = result_t.ok
      · simp [hok] at h; omega
      · by_cases hns : (attempt done).2 = result_t.errNoSignal
        · simp [hok, hns] at h; omega
        · by_cases hsend : (attempt done).2 = result_t.errSend
          · simp [hok, hns, hsend] at h; omega
          · by_cases hdev : (attempt done).2 = result_t.errDevice
            · simp [hok, hns, hsend, hdev] at h; omega
            · simp only [if_pos rfl, if_neg hok] at h
              rcases Nat.lt_or_ge done k with hlt | hge
              · have h' : k + 1 < (sendAndWaitLoop attempt (done + 1) m).2 := by
                  simp [hok, hns, hsend, hdev] at h
                  exact h
                exact ih (done + 1) k hlt h'
              · have hde : done = k := Nat.le_antisymm hdk hge
                subst hde
                exact ⟨hb, hok, hns, hsend, hdev⟩

/-- C3 counterexample: the claim bounds the attempts of sendAndWait by
1 + failedSendRetries, but with failedSendRetries = 0 a request whose
attempts keep failing with the retryable err-crc is attempted twice. -/
theorem sendAndWait_attempts_exceed_claimed_bound :
    (sendAndWait 0 (fun _ => (true, result_t.errCrc))).2 = 2
    ∧ ¬ ((sendAndWait 0 (fun _ => (true, result_t.errCrc))).2 ≤ 0 + 1) := by
  decide

/-- C3 amended: every call of BusHandler::sendAndWait attempts the request
at most 2 + failedSendRetries times (the loop counter starts at
failedSendRetries + 1 and runs down to 0 inclusive), and an attempt after
the first happens only when the previous attempt finished with a
retryable error: never after success and never after err-no-signal,
err-send or err-device (nor after a failed wait, reported as timeout
without a recorded result). -/
theorem sendAndWait_retry_policy (failedSendRetries : Nat) (attempt : attemptOutcome) :
    (sendAndWait failedSendRetries attempt).2 ≤ failedSendRetries + 2
    ∧ ∀ k, k + 1 < (sendAndWait failedSendRetries attempt).2 →
        (attempt k).1 = true ∧ (attempt k).2 ≠ .ok ∧ (attempt k).2 ≠ .errNoSignal ∧
        (attempt k).2 ≠ .errSend ∧ (attempt k).2 ≠ .errDevice := by
  constructor
  · have := sendAndWaitLoop_attempt_count attempt (failedSendRetries + 1) 0
    simpa [sendAndWait] using this
  · intro k hk
    exact sendAndWaitLoop_retry_only_retryable attempt (failedSendRetries + 1) 0 k
      (Nat.zero_le k) hk

/-- Witness for C3 amended: with failedSendRetries = 1 and attempts always
ending in err-crc, three attempts are made (within the bound of 3) and
the attempt before a retry was a successful wait with a retryable error. -/
theorem sendAndWait_retry_policy_witness :
    (sendAndWait 1 (fun _ => (true, result_t.errCrc))).2 ≤ 1 + 2
    ∧ ((fun _ : Nat => (true, result_t.errCrc)) 0).2 ≠ result_t.ok := by
  refine ⟨(sendAndWait_retry_policy 1 (fun _ => (true, result_t.errCrc))).1, ?_⟩
  exact ((sendAndWait_retry_policy 1 (fun _ => (true, result_t.errCrc))).2 0 (by decide)).2.1

/-! ### C6: the bus-lost retry policy of setState -/

/-- C6: when the current request loses arbitration (err-bus-lost) and its
retry counter is below the configured busLostRetries, setState re-queues
it at the tail of next_requests with the counter incremented and delivers
nothing to finished_requests; once the counter has reached busLostRetries,
the request is instead completed with err-bus-lost (for a client request,
which does not restart and is not self-deleting, it lands in
finished_requests with err-bus-lost). -/
theorem busLost_retry_policy (cfg : BusConfig) (s : EngineState) (state : BusState)
    (req : BusRequest) (hcur : s.currentRequest = some req) (hns : state ≠ .noSignal) :
    (req.busLostRetries < cfg.busLostRetries →
      ((setState cfg s state .errBusLost).1.nextRequests
          = s.nextRequests ++ [{req with busLostRetries := req.busLostRetries + 1}]
        ∧ (setState cfg s state .errBusLost).1.finishedRequests = s.finishedRequests
        ∧ (setState cfg s state .errBusLost).1.currentRequest = none))
    ∧ (cfg.busLostRetries ≤ req.busLostRetries →
        req.restartOn .errBusLost = false → req.deleteOnFinish = false →
        ((setState cfg s state .errBusLost).1.finishedRequests
            = s.finishedRequests ++ [(req, .errBusLost)]
          ∧ (setState cfg s state .errBusLost).1.nextRequests = s.nextRequests
          ∧ (setState cfg s state .errBusLost).1.currentRequest = none)) := by
  obtain ⟨q1, q2, q3⟩ := setState_fst_queues cfg s state .errBusLost false hns
  constructor
  · intro hlt
    rw [q1, q2, q3]
    simp only [setStateRequest, hcur]
    rw [if_pos ⟨trivial, hlt⟩]
    exact ⟨rfl, rfl, rfl⟩
  · intro hge hres hdel
    rw [q1, q2, q3]
    simp [setStateRequest, hcur, notifyResultOf, hres, hdel, Nat.not_lt.mpr hge]

/-- Witness for C6: a request with counter 0 under limit 2 is re-queued
with counter 1; a request with counter 2 is finished with err-bus-lost. -/
theorem busLost_retry_policy_witness :
    (setState ⟨0xFF, false, 2, 1, 10⟩
        ⟨.ready, some ⟨1, [0xFF, 0x08], 0, false, fun _ => false⟩, [], [], false, [], false,
          [], false, 0, 0, 3, true, 1, fun _ => 0, 0⟩
        .ready .errBusLost).1.currentRequest = none
    ∧ (setState ⟨0xFF, false, 2, 1, 10⟩
        ⟨.ready, some ⟨1, [0xFF, 0x08], 2, false, fun _ => false⟩, [], [], false, [], false,
          [], false, 0, 0, 3, true, 1, fun _ => 0, 0⟩
        .ready .errBusLost).1.finishedRequests
      = [] ++ [(⟨1, [0xFF, 0x08], 2, false, fun _ => false⟩, .errBusLost)] := by
  constructor
  · exact ((busLost_retry_policy _ _ _ _ rfl (by decide)).1 (by decide)).2.2
  · exact ((busLost_retry_policy _ _ _ _ rfl (by decide)).2 (by decide) rfl rfl).1

/-! ### C2: exactly one repetition of the master half on NAK -/

/-- C2: in recv-cmd-ack with an active current request, a first NAK makes
the engine repeat the master half exactly once: it switches back to
send-cmd at position 0 with the repeat flag set and the request still in
flight; a NAK received while already repeating finishes the transfer with
err-nak (the request lands in finished_requests with err-nak and the
engine leaves for skip, not for another send-cmd repetition). -/
theorem nak_single_retry (cfg : BusConfig) (s : EngineState) (req : BusRequest)
    (hstate : s.state = .recvCmdAck) (hcur : s.currentRequest = some req)
    (hres : req.restartOn .errNak = false) (hdel : req.deleteOnFinish = false) :
    (s.mRepeat = false →
      ((recvCmdAckOnSymbol cfg s NAK).1.state = .sendCmd
        ∧ (recvCmdAckOnSymbol cfg s NAK).1.currentRequest = some req
        ∧ (recvCmdAckOnSymbol cfg s NAK).1.mRepeat = true
        ∧ (recvCmdAckOnSymbol cfg s NAK).1.nextSendPos = 0
        ∧ (recvCmdAckOnSymbol cfg s NAK).1.finishedRequests = s.finishedRequests
        ∧ (recvCmdAckOnSymbol cfg s NAK).2 = .errNak))
    ∧ (s.mRepeat = true →
      ((recvCmdAckOnSymbol cfg s NAK).1.state = .skip
        ∧ (recvCmdAckOnSymbol cfg s NAK).1.state ≠ .sendCmd
        ∧ (recvCmdAckOnSymbol cfg s NAK).1.currentRequest = none
        ∧ (recvCmdAckOnSymbol cfg s NAK).1.finishedRequests
            = s.finishedRequests ++ [(req, .errNak)]
        ∧ (recvCmdAckOnSymbol cfg s NAK).2 = .errNak)) := by
  unfold recvCmdAckOnSymbol
  rw [if_neg (by decide : ¬ (NAK = ACK)), if_pos (rfl : NAK = NAK)]
  constructor
  · intro hrep
    rw [if_pos (by simp [hrep] : ¬ s.mRepeat = true)]
    dsimp only
    rw [show ({s with mRepeat := true, nextSendPos := 0, command := []} : EngineState).currentRequest.isSome
          = true by simp [hcur]]
    rw [if_pos rfl]
    obtain ⟨c1, c2, c3, c4, c5⟩ :=
      setState_fst_common cfg {s with mRepeat := true, nextSendPos := 0, command := []}
        .sendCmd .errNak true
    obtain ⟨q1, q2, q3⟩ :=
      setState_fst_queues cfg {s with mRepeat := true, nextSendPos := 0, command := []}
        .sendCmd .errNak true (by decide)
    obtain ⟨b1, b2, b3, b4⟩ :=
      setState_fst_buffers cfg {s with mRepeat := true, nextSendPos := 0, command := []}
        .sendCmd .errNak true (by decide) (by decide) (by decide)
    refine ⟨c1, ?_, by simpa using c3, by simpa using b1, ?_, c5⟩
    · rw [q3]
      simp [setStateRequest, hcur]
    · rw [q2]
      simp [setStateRequest, hcur]
  · intro hrep
    rw [if_neg (by simp [hrep])]
    obtain ⟨c1, c2, c3, c4, c5⟩ := setState_fst_common cfg s .skip .errNak false
    obtain ⟨q1, q2, q3⟩ := setState_fst_queues cfg s .skip .errNak false (by decide)
    refine ⟨c1, by rw [c1]; decide, ?_, ?_, c5⟩
    · rw [q3]
      simp [setStateRequest, hcur, notifyResultOf, hres, hdel]
    · rw [q2]
      simp [setStateRequest, hcur, notifyResultOf, hres, hdel]

/-- Witness for C2: a concrete recv-cmd-ack state; the first NAK re-enters
send-cmd with the request still current, the second NAK finishes it with
err-nak. -/
theorem nak_single_retry_witness :
    (recvCmdAckOnSymbol ⟨0xFF, false, 2, 1, 10⟩
        ⟨.recvCmdAck, some ⟨1, [0xFF, 0x08, 0x07, 0x04, 0x00, 0x5A], 0, false, fun _ => false⟩,
          [], [], false, [], true, [], false, 6, 0, 3, true, 1, fun _ => 0, 0⟩
        NAK).1.state = .sendCmd
    ∧ (recvCmdAckOnSymbol ⟨0xFF, false, 2, 1, 10⟩
        ⟨.recvCmdAck, some ⟨1, [0xFF, 0x08, 0x07, 0x04, 0x00, 0x5A], 0, false, fun _ => false⟩,
          [], [], true, [], true, [], false, 6, 0, 3, true, 1, fun _ => 0, 0⟩
        NAK).1.finishedRequests
      = [] ++ [(⟨1, [0xFF, 0x08, 0x07, 0x04, 0x00, 0x5A], 0, false, fun _ => false⟩, .errNak)] := by
  constructor
  · exact ((nak_single_retry _ _ _ rfl rfl rfl rfl).1 rfl).1
  · exact ((nak_single_retry _ _ _ rfl rfl rfl rfl).2 rfl).2.2.2.1

/-! ### C7: broadcast requests end at send-syn after the master frame -/

/-- C7: in send-cmd, when the last master byte has been sent and echoed
back, a request whose destination (master byte 1) is the broadcast
address 0xFE transitions directly to send-syn and the request finishes
there with ok (no command ACK, slave frame or response ACK states are
entered); with any other destination the engine waits in recv-cmd-ack
for the command ACK instead. -/
theorem broadcast_ends_at_sendSyn (cfg : BusConfig) (s : EngineState) (req : BusRequest)
    (sym : Nat)
    (hstate : s.state = .sendCmd) (hcur : s.currentRequest = some req)
    (hlast : req.master.length ≤ s.nextSendPos + 1)
    (hres : req.restartOn .ok = false) (hdel : req.deleteOnFinish = false) :
    (req.master.getD 1 0 = BROADCAST →
      ((sendCmdOnSymbol cfg s true sym sym).1.state = .sendSyn
        ∧ (sendCmdOnSymbol cfg s true sym sym).1.finishedRequests
            = s.finishedRequests ++ [(req, .ok)]
        ∧ (sendCmdOnSymbol cfg s true sym sym).1.currentRequest = none
        ∧ (sendCmdOnSymbol cfg s true sym sym).2 = .ok))
    ∧ (req.master.getD 1 0 ≠ BROADCAST →
      (sendCmdOnSymbol cfg s true sym sym).1.state = .recvCmdAck) := by
  unfold sendCmdOnSymbol
  rw [hcur]
  dsimp only
  rw [if_pos ⟨rfl, rfl⟩]
  rw [if_pos (by simpa using hlast)]
  constructor
  · intro hdst
    rw [if_pos hdst]
    have hdst2 : req.master[1]?.getD 0 = 254 := by simpa [BROADCAST] using hdst
    refine ⟨(setState_fst_common cfg _ .sendSyn .ok false).1, ?_, ?_,
      (setState_fst_common cfg _ .sendSyn .ok false).2.2.2.2⟩
    · rw [(setState_fst_queues cfg _ .sendSyn .ok false (by decide)).2.1]
      simp [setStateRequest, notifyResultOf, hres, hdel, hstate, hdst2,
        addSeenAddress, isValidAddress, BROADCAST, SYN, ESC]
    · rw [(setState_fst_queues cfg _ .sendSyn .ok false (by decide)).2.2]
      simp [setStateRequest, notifyResultOf, hres, hdel, hstate, hdst2,
        addSeenAddress, isValidAddress, BROADCAST, SYN, ESC]
  · intro hdst
    rw [if_neg hdst]
    exact (setState_fst_common cfg _ .recvCmdAck .ok false).1

/-- Witness for C7: a concrete broadcast write request whose final byte has
just been echoed ends at send-syn with the request finished ok. -/
theorem broadcast_ends_at_sendSyn_witness :
    (sendCmdOnSymbol ⟨0x31, false, 2, 1, 10⟩
        ⟨.sendCmd, some ⟨1, [0x31, 0xFE, 0x07, 0xFF, 0x00, 0x5A], 0, false, fun _ => false⟩,
          [], [], false, [], false, [], false, 5, 0, 3, true, 1, fun _ => 0, 0⟩
        true 0x5A 0x5A).1.state = .sendSyn
    ∧ (sendCmdOnSymbol ⟨0x31, false, 2, 1, 10⟩
        ⟨.sendCmd, some ⟨1, [0x31, 0xFE, 0x07, 0xFF, 0x00, 0x5A], 0, false, fun _ => false⟩,
          [], [], false, [], false, [], false, 5, 0, 3, true, 1, fun _ => 0, 0⟩
        true 0x5A 0x5A).1.currentRequest = none := by
  constructor
  · exact ((broadcast_ends_at_sendSyn _ _ _ _ rfl rfl (by decide) rfl rfl).1 (by decide)).1
  · exact ((broadcast_ends_at_sendSyn _ _ _ _ rfl rfl (by decide) rfl rfl).1 (by decide)).2.2.1

/-! ### C1: arbitration in the ready state -/

/-- C1: when arbitration was started in ready (the own master address was
sent) and the echoed byte equals it, the engine advances to send-cmd;
when it differs, the remaining lock count becomes 2 if the received byte
is a master address and 1 otherwise, raised to lockCount when the low
nibbles of the received and the own address differ and lockCount is
larger than the value just set. -/
theorem arbitration_outcome (cfg : BusConfig) (s : EngineState) (req : BusRequest)
    (recvSymbol : Nat)
    (hstate : s.state = .ready)
    (hqueue : s.nextRequests.any (fun r => r.id = req.id) = true) :
    (recvSymbol = cfg.ownMasterAddress →
      (readyOnSymbol cfg s (some req) true cfg.ownMasterAddress recvSymbol).1.state = .sendCmd)
    ∧ (recvSymbol ≠ cfg.ownMasterAddress →
      (readyOnSymbol cfg s (some req) true cfg.ownMasterAddress recvSymbol).1.remainLockCount
        = (if (recvSymbol &&& 0x0F) ≠ (cfg.ownMasterAddress &&& 0x0F)
              ∧ s.lockCount > (if isMaster recvSymbol then 2 else 1)
           then s.lockCount
           else (if isMaster recvSymbol then 2 else 1))) := by
  unfold readyOnSymbol
  dsimp only
  rw [if_neg (by simp [hqueue])]
  constructor
  · intro heq
    rw [if_pos heq]
    exact (setState_fst_common cfg _ .sendCmd .ok false).1
  · intro hne
    rw [if_neg hne]
    rw [(setState_fst_common cfg _ .recvCmd .ok false).2.1]
    dsimp only
    rw [(setState_fst_common cfg _ s.state .errBusLost false).2.1]

/-- Witness for C1: own address 0x31; echo 0x31 advances to send-cmd, and
an echo of 0x01 (a master with the same low nibble) sets the remaining
lock count to 2. -/
theorem arbitration_outcome_witness :
    (readyOnSymbol ⟨0x31, false, 2, 1, 10⟩
        ⟨.ready, none, [⟨1, [0x31, 0x08], 0, false, fun _ => false⟩], [], false, [], false,
          [], false, 0, 0, 3, true, 1, fun _ => 0, 0⟩
        (some ⟨1, [0x31, 0x08], 0, false, fun _ => false⟩) true 0x31 0x31).1.state = .sendCmd
    ∧ (readyOnSymbol ⟨0x31, false, 2, 1, 10⟩
        ⟨.ready, none, [⟨1, [0x31, 0x08], 0, false, fun _ => false⟩], [], false, [], false,
          [], false, 0, 0, 3, true, 1, fun _ => 0, 0⟩
        (some ⟨1, [0x31, 0x08], 0, false, fun _ => false⟩) true 0x31 0x01).1.remainLockCount
      = 2 := by
  constructor
  · exact (arbitration_outcome ⟨0x31, false, 2, 1, 10⟩
      ⟨.ready, none, [⟨1, [0x31, 0x08], 0, false, fun _ => false⟩], [], false, [], false,
        [], false, 0, 0, 3, true, 1, fun _ => 0, 0⟩
      ⟨1, [0x31, 0x08], 0, false, fun _ => false⟩ 0x31 rfl (by decide)).1 rfl
  · have h := (arbitration_outcome ⟨0x31, false, 2, 1, 10⟩
      ⟨.ready, none, [⟨1, [0x31, 0x08], 0, false, fun _ => false⟩], [], false, [], false,
        [], false, 0, 0, 3, true, 1, fun _ => 0, 0⟩
      ⟨1, [0x31, 0x08], 0, false, fun _ => false⟩ 0x01 rfl (by decide)).2 (by decide)
    rw [h]
    decide

/-! ### C8: poll requests start only on an idle bus -/

theorem handleSymbolStart_not_ready (cfg : BusConfig) (env : PollEnv) (now : Nat)
    (s : EngineState) (h : s.state ≠ .ready) :
    (handleSymbolStart cfg env now s).1 = s := by
  unfold handleSymbolStart
  cases hst : s.state
  all_goals try dsimp only
  all_goals first
    | exact absurd hst h
    | rfl
    | (cases s.currentRequest <;> rfl)
    | (split <;> rfl)

theorem handleSymbolStart_ready (cfg : BusConfig) (env : PollEnv) (now : Nat)
    (s : EngineState) (h : s.state = .ready) :
    (handleSymbolStart cfg env now s).1 = (readyStart cfg env now s).1
    ∧ (handleSymbolStart cfg env now s).2.1 = (readyStart cfg env now s).2 := by
  unfold handleSymbolStart
  rw [h]
  cases hr : (readyStart cfg env now s).2 <;> simp [hr]

theorem readyCleanup_spec (cfg : BusConfig) (s : EngineState) :
    (readyCleanup cfg s).currentRequest = none
    ∧ (readyCleanup cfg s).remainLockCount = s.remainLockCount
    ∧ (readyCleanup cfg s).lastPoll = s.lastPoll
    ∧ ∃ tail, (readyCleanup cfg s).nextRequests = s.nextRequests ++ tail
        ∧ ∀ r ∈ tail, ∃ cr, s.currentRequest = some cr ∧ r.id = cr.id := by
  unfold readyCleanup
  split
  · next hsome =>
    obtain ⟨q1, q2, q3⟩ := setState_fst_queues cfg s .ready .errTimeout false (by decide)
    obtain ⟨c1, c2, c3, c4, c5⟩ := setState_fst_common cfg s .ready .errTimeout false
    rw [q1, q3]
    cases hcur : s.currentRequest with
    | none => simp [hcur] at hsome
    | some cr =>
      simp only [setStateRequest, hcur]
      rw [if_neg (show ¬ (result_t.errTimeout = result_t.errBusLost
            ∧ cr.busLostRetries < cfg.busLostRetries) by simp),
          if_pos (Or.inr ⟨by simp, by simp⟩)]
      try dsimp only
      rw [if_neg (show ¬ (result_t.errTimeout = result_t.ok) by simp)]
      split
      · exact ⟨rfl, c2, c4, [{cr with busLostRetries := 0}], rfl,
          by intro r hr; rw [List.mem_singleton] at hr; subst hr; exact ⟨cr, rfl, rfl⟩⟩
      · split
        · exact ⟨rfl, c2, c4, [], by simp, by simp⟩
        · exact ⟨rfl, c2, c4, [], by simp, by simp⟩
  · next hnone =>
    refine ⟨?_, rfl, rfl, [], by simp, by simp⟩
    cases hcur : s.currentRequest with
    | none => rfl
    | some cr => simp [hcur] at hnone

theorem readyStartBody_enqueue_inversion (cfg : BusConfig) (env : PollEnv) (now : Nat)
    (s1 : EngineState) (pr : BusRequest)
    (hmem : pr ∈ (readyStartBody cfg env now s1).1.nextRequests)
    (hnew : ∀ r ∈ s1.nextRequests, r.id ≠ pr.id) :
    s1.remainLockCount = 0
    ∧ s1.currentRequest.isNone = true
    ∧ s1.nextRequests = []
    ∧ (readyStartBody cfg env now s1).1.currentRequest = s1.currentRequest
    ∧ cfg.pollInterval > 0
    ∧ (s1.lastPoll = 0 ∨ now - s1.lastPoll > cfg.pollInterval)
    ∧ env.nextPoll = some pr
    ∧ env.prepareResult = .ok
    ∧ (readyStartBody cfg env now s1).2 = some pr := by
  unfold readyStartBody at hmem ⊢
  by_cases hc : s1.remainLockCount = 0 ∧ s1.currentRequest.isNone = true
  case neg =>
    rw [if_neg hc] at hmem
    exact absurd rfl (hnew pr hmem)
  case pos =>
    rw [if_pos hc] at hmem ⊢
    cases hh : s1.nextRequests.head? with
    | some r =>
      rw [hh] at hmem
      dsimp only at hmem
      exact absurd rfl (hnew pr hmem)
    | none =>
      rw [hh] at hmem
      dsimp only at hmem ⊢
      have hnil : s1.nextRequests = [] := by
        cases hq : s1.nextRequests with
        | nil => rfl
        | cons a l => rw [hq] at hh; exact absurd hh (by simp)
      by_cases hpi : cfg.pollInterval > 0
      case neg =>
        rw [if_neg hpi] at hmem
        exact absurd rfl (hnew pr hmem)
      case pos =>
        rw [if_pos hpi] at hmem ⊢
        by_cases hel : s1.lastPoll = 0 ∨ now - s1.lastPoll > cfg.pollInterval
        case neg =>
          rw [if_neg hel] at hmem
          exact absurd rfl (hnew pr hmem)
        case pos =>
          rw [if_pos hel] at hmem ⊢
          cases hnp : env.nextPoll with
          | none =>
            rw [hnp] at hmem
            dsimp only at hmem
            exact absurd rfl (hnew pr hmem)
          | some request =>
            rw [hnp] at hmem
            dsimp only at hmem ⊢
            by_cases hprep : env.prepareResult = result_t.ok
            case neg =>
              rw [if_pos (by simpa using hprep)] at hmem
              dsimp only at hmem
              exact absurd rfl (hnew pr hmem)
            case pos =>
              rw [if_neg (by simpa using hprep)] at hmem ⊢
              dsimp only at hmem ⊢
              rw [hnil] at hmem
              rw [List.nil_append, List.mem_singleton] at hmem
              subst hmem
              exact ⟨hc.1, hc.2, hnil, rfl, hpi, hel, rfl, hprep, rfl⟩

/-- C8: a PollRequest is created and enqueued by handleSymbol (a request
appearing in next_requests that is neither an already queued request nor
the cleaned-up current request) only when the bus state is ready, the
remaining lock count is zero, no request is in flight after the cleanup,
next_requests is empty, polling is enabled (pollInterval positive) and
more than pollInterval seconds have passed since the last poll (or there
was none); the enqueued request is exactly the prepared poll request and
it is the one arbitration starts for, so a poll request is never started
while a client request is pending. -/
theorem poll_started_only_when_idle (cfg : BusConfig) (env : PollEnv) (now : Nat)
    (s : EngineState) (pr : BusRequest)
    (hmem : pr ∈ (handleSymbolStart cfg env now s).1.nextRequests)
    (hnew : ∀ r ∈ s.nextRequests, r.id ≠ pr.id)
    (hnotcur : ∀ cr, s.currentRequest = some cr → cr.id ≠ pr.id) :
    s.state = .ready
    ∧ s.remainLockCount = 0
    ∧ s.nextRequests = []
    ∧ (handleSymbolStart cfg env now s).1.currentRequest = none
    ∧ cfg.pollInterval > 0
    ∧ (s.lastPoll = 0 ∨ now - s.lastPoll > cfg.pollInterval)
    ∧ env.nextPoll = some pr
    ∧ env.prepareResult = .ok
    ∧ (handleSymbolStart cfg env now s).2.1 = some pr := by
  by_cases hst : s.state = .ready
  case neg =>
    rw [handleSymbolStart_not_ready cfg env now s hst] at hmem
    exact absurd rfl (hnew pr hmem)
  case pos =>
    obtain ⟨e1, e2⟩ := handleSymbolStart_ready cfg env now s hst
    rw [e1] at hmem
    rw [e1, e2]
    unfold readyStart at hmem ⊢
    obtain ⟨k1, k2, k3, tail, k4, k5⟩ := readyCleanup_spec cfg s
    have hnew1 : ∀ r ∈ (readyCleanup cfg s).nextRequests, r.id ≠ pr.id := by
      intro r hr
      rw [k4] at hr
      rcases List.mem_append.mp hr with h | h
      · exact hnew r h
      · obtain ⟨cr, hcr, hid⟩ := k5 r h
        rw [hid]
        exact hnotcur cr hcr
    obtain ⟨b1, b2, b3, b4, b5, b6, b7, b8, b9⟩ :=
      readyStartBody_enqueue_inversion cfg env now (readyCleanup cfg s) pr hmem hnew1
    refine ⟨hst, ?_, ?_, ?_, b5, ?_, b7, b8, b9⟩
    · rw [← k2]; exact b1
    · have happ : s.nextRequests ++ tail = [] := by rw [← k4, b3]
      exact (List.append_eq_nil.mp happ).1
    · rw [b4, k1]
    · rw [← k3]; exact b6

/-- Witness for C8: an idle ready engine (no lock, empty queue, never
polled) with a due poll request enqueues it and starts arbitration for
it. -/
theorem poll_started_only_when_idle_witness :
    (handleSymbolStart ⟨0xFF, false, 2, 1, 10⟩
        ⟨some ⟨7, [0xFF, 0x08, 0x07, 0x04, 0x00], 0, true, fun _ => false⟩, .ok⟩ 100
        ⟨.ready, none, [], [], false, [], false, [], false, 0, 0, 3, true, 1, fun _ => 0, 0⟩).2.1
      = some ⟨7, [0xFF, 0x08, 0x07, 0x04, 0x00], 0, true, fun _ => false⟩
    ∧ (handleSymbolStart ⟨0xFF, false, 2, 1, 10⟩
        ⟨some ⟨7, [0xFF, 0x08, 0x07, 0x04, 0x00], 0, true, fun _ => false⟩, .ok⟩ 100
        ⟨.ready, none, [], [], false, [], false, [], false, 0, 0, 3, true, 1, fun _ => 0, 0⟩).1.currentRequest
      = none := by
  have h := poll_started_only_when_idle ⟨0xFF, false, 2, 1, 10⟩
    ⟨some ⟨7, [0xFF, 0x08, 0x07, 0x04, 0x00], 0, true, fun _ => false⟩, .ok⟩ 100
    ⟨.ready, none, [], [], false, [], false, [], false, 0, 0, 3, true, 1, fun _ => 0, 0⟩
    ⟨7, [0xFF, 0x08, 0x07, 0x04, 0x00], 0, true, fun _ => false⟩
    (List.mem_singleton.mpr rfl)
    (by simp)
    (fun cr hcr => nomatch hcr)
  exact ⟨h.2.2.2.2.2.2.2.2, h.2.2.2.1⟩

/-! ### C9: the lock count never drops -/

theorem receiveCompleted_lockCount_mono (cfg : BusConfig) (s : EngineState) :
    s.lockCount ≤ (receiveCompleted cfg s).lockCount := by
  unfold receiveCompleted
  dsimp only
  split
  · exact le_refl _
  · exact le_trans (addSeenAddress_lockCount_mono cfg s _)
      (addSeenAddress_lockCount_mono cfg (addSeenAddress cfg s _) _)

theorem readyOnSymbol_lockCount_mono (cfg : BusConfig) (s : EngineState)
    (startRequest : Option BusRequest) (sending : Bool) (sendSymbol recvSymbol : Nat) :
    s.lockCount ≤ (readyOnSymbol cfg s startRequest sending sendSymbol recvSymbol).1.lockCount := by
  unfold readyOnSymbol
  dsimp only
  repeat' split
  all_goals first
    | exact setState_fst_lockCount_mono_of_eq cfg _ _ _ _ _ rfl
    | (refine le_trans ?_ (setState_fst_lockCount_mono_of_eq cfg _ .recvCmd .ok false _ rfl)
       exact setState_fst_lockCount_mono_of_eq cfg _ s.state .errBusLost false _ rfl)

theorem recvCmdAckOnSymbol_lockCount_mono (cfg : BusConfig) (s : EngineState)
    (recvSymbol : Nat) :
    s.lockCount ≤ (recvCmdAckOnSymbol cfg s recvSymbol).1.lockCount := by
  unfold recvCmdAckOnSymbol
  dsimp only
  repeat' split
  all_goals first
    | exact setState_fst_lockCount_mono_of_eq cfg _ _ _ _ _ rfl
    | (refine le_trans ?_ (setState_fst_lockCount_mono_of_eq cfg _ .skip .ok false _ rfl)
       exact receiveCompleted_lockCount_mono cfg s)

theorem sendCmdOnSymbol_lockCount_mono (cfg : BusConfig) (s : EngineState)
    (sending : Bool) (sendSymbol recvSymbol : Nat) :
    s.lockCount ≤ (sendCmdOnSymbol cfg s sending sendSymbol recvSymbol).1.lockCount := by
  unfold sendCmdOnSymbol
  dsimp only
  repeat' split
  all_goals first
    | exact le_refl _
    | exact setState_fst_lockCount_mono_of_eq cfg _ _ _ _ _ rfl

theorem readyCleanup_lockCount_mono (cfg : BusConfig) (s : EngineState) :
    s.lockCount ≤ (readyCleanup cfg s).lockCount := by
  unfold readyCleanup
  split
  · exact setState_fst_lockCount_mono_of_eq cfg _ _ _ _ _ rfl
  · exact le_refl _

theorem readyStartBody_lockCount_mono (cfg : BusConfig) (env : PollEnv) (now : Nat)
    (s : EngineState) :
    s.lockCount ≤ (readyStartBody cfg env now s).1.lockCount := by
  unfold readyStartBody
  dsimp only
  repeat' split
  all_goals exact le_refl _

theorem readyStart_lockCount_mono (cfg : BusConfig) (env : PollEnv) (now : Nat)
    (s : EngineState) :
    s.lockCount ≤ (readyStart cfg env now s).1.lockCount := by
  unfold readyStart
  exact le_trans (readyCleanup_lockCount_mono cfg s)
    (readyStartBody_lockCount_mono cfg env now _)

theorem handleSymbolStart_lockCount_mono (cfg : BusConfig) (env : PollEnv) (now : Nat)
    (s : EngineState) :
    s.lockCount ≤ (handleSymbolStart cfg env now s).1.lockCount := by
  by_cases h : s.state = .ready
  · rw [(handleSymbolStart_ready cfg env now s h).1]
    exact readyStart_lockCount_mono cfg env now s
  · rw [handleSymbolStart_not_ready cfg env now s h]

/-- C9: the lock count never falls below 3: the constructor initialises it
to 3 whenever the configured value is at most 3 (including 0 for auto
mode) and to the configured value otherwise; addSeenAddress never lowers
it, leaves it unchanged outside auto mode, and when it changes it in auto
mode it raises it exactly to the new seen master count; and none of the
embedded engine operations (setState and the handleSymbol pieces) ever
lowers it. -/
theorem lockCount_never_below_three :
    (∀ c : Nat, 3 ≤ initLockCount c
      ∧ (c ≤ 3 → initLockCount c = 3) ∧ (3 < c → initLockCount c = c))
    ∧ (∀ (cfg : BusConfig) (s : EngineState) (a : Nat),
        s.lockCount ≤ (addSeenAddress cfg s a).lockCount
        ∧ (s.autoLockCount = false → (addSeenAddress cfg s a).lockCount = s.lockCount)
        ∧ ((addSeenAddress cfg s a).lockCount ≠ s.lockCount →
            s.autoLockCount = true
            ∧ (addSeenAddress cfg s a).lockCount = (addSeenAddress cfg s a).masterCount
            ∧ s.lockCount < (addSeenAddress cfg s a).masterCount))
    ∧ (∀ (cfg : BusConfig) (s : EngineState) (state : BusState) (result : result_t)
        (frp : Bool), s.lockCount ≤ (setState cfg s state result frp).1.lockCount)
    ∧ (∀ (cfg : BusConfig) (s : EngineState) (startRequest : Option BusRequest)
        (sending : Bool) (sendSymbol recvSymbol : Nat),
        s.lockCount ≤ (readyOnSymbol cfg s startRequest sending sendSymbol recvSymbol).1.lockCount)
    ∧ (∀ (cfg : BusConfig) (s : EngineState) (recvSymbol : Nat),
        s.lockCount ≤ (recvCmdAckOnSymbol cfg s recvSymbol).1.lockCount)
    ∧ (∀ (cfg : BusConfig) (s : EngineState) (sending : Bool) (sendSymbol recvSymbol : Nat),
        s.lockCount ≤ (sendCmdOnSymbol cfg s sending sendSymbol recvSymbol).1.lockCount)
    ∧ (∀ (cfg : BusConfig) (env : PollEnv) (now : Nat) (s : EngineState),
        s.lockCount ≤ (handleSymbolStart cfg env now s).1.lockCount) := by
  refine ⟨?_, ?_, ?_, ?_, ?_, ?_, ?_⟩
  · intro c
    unfold initLockCount
    refine ⟨?_, fun h => ?_, fun h => ?_⟩
    · split <;> omega
    · rw [if_pos h]
    · rw [if_neg (by omega)]
  · intro cfg s a
    exact ⟨addSeenAddress_lockCount_mono cfg s a,
      (addSeenAddress_lockCount_auto cfg s a).1,
      (addSeenAddress_lockCount_auto cfg s a).2⟩
  · intro cfg s state result frp
    exact setState_fst_lockCount_mono cfg s state result frp
  · intro cfg s startRequest sending sendSymbol recvSymbol
    exact readyOnSymbol_lockCount_mono cfg s startRequest sending sendSymbol recvSymbol
  · intro cfg s recvSymbol
    exact recvCmdAckOnSymbol_lockCount_mono cfg s recvSymbol
  · intro cfg s sending sendSymbol recvSymbol
    exact sendCmdOnSymbol_lockCount_mono cfg s sending sendSymbol recvSymbol
  · intro cfg env now s
    exact handleSymbolStart_lockCount_mono cfg env now s

/-- Witness for C9: the auto-mode configuration 0 initialises the lock
count to 3, and addSeenAddress of a new master leaves the lock count of a
non-auto engine unchanged. -/
theorem lockCount_never_below_three_witness :
    initLockCount 0 = 3
    ∧ (addSeenAddress ⟨0xFF, false, 2, 1, 10⟩
        ⟨.ready, none, [], [], false, [], false, [], false, 0, 0, 5, false, 1, fun _ => 0, 0⟩
        0x10).lockCount
      = (⟨.ready, none, [], [], false, [], false, [], false, 0, 0, 5, false, 1, fun _ => 0, 0⟩
          : EngineState).lockCount := by
  refine ⟨(lockCount_never_below_three.1 0).2.1 (by decide), ?_⟩
  exact (lockCount_never_below_three.2.1 ⟨0xFF, false, 2, 1, 10⟩
    ⟨.ready, none, [], [], false, [], false, [], false, 0, 0, 5, false, 1, fun _ => 0, 0⟩
    0x10).2.1 rfl

end Ebusd
